import Mathlib

/-!
# Verification of the per-key debounce/batch aggregation core

Shallow embedding of `src/routes_webhook.py` (LINE webhook → batch buffer →
debounce timer → enrichment → Hatena publish).  Python dicts keyed by the
LINE user id are modelled as association lists `List (String × α)` (insertion
order preserved, as in CPython); `defaultdict(list)` access is modelled by
`getD` with default `[]`.  External collaborators (Gemini analysis, Imgur
upload, Hatena publish) are oracle parameters.
-/

set_option autoImplicit false

namespace Webhook

/-- One buffered message, the `message_data` dict built by
`process_message_event_with_batch`. -/
structure Msg where
  lineMessageId : String
  userId : String
  messageType : String
  content : String
  filePath : Option String
  imgurUrl : Option String
deriving DecidableEq, Repr

/-- One row of the `Message` table (`src.database.Message`): fields set by
`process_message_event_with_batch`, plus the `processed` flag. -/
structure StoredMessage where
  lineMessageId : String
  userId : String
  messageType : String
  content : String
  filePath : Option String
  processed : Bool
deriving DecidableEq, Repr

/-- One decoded entry of the webhook body's `events` array. -/
structure Event where
  eventType : String
  userId : Option String
  messageId : Option String
  messageType : String
  text : String
deriving DecidableEq, Repr

/-- The module-level mutable state of `routes_webhook.py`:
`user_message_buffer` (a `defaultdict(list)`), `user_batch_timers`
(user id → live `threading.Timer`, modelled by an opaque timer id),
and the `Message` table of the database. -/
structure ServerState where
  buffer : List (String × List Msg)
  timers : List (String × Nat)
  store : List StoredMessage
deriving DecidableEq, Repr

/-- Dict lookup (`d[k]` / `k in d`); a Python dict has one entry per key. -/
def dictGet {α : Type} : List (String × α) → String → Option α
  | [], _ => none
  | p :: rest, k => if p.1 == k then some p.2 else dictGet rest k

/-- Dict update `d[k] = v`: replace the key's entry in place, or append a
fresh key at the end (CPython insertion order). -/
def dictSet {α : Type} : List (String × α) → String → α → List (String × α)
  | [], k, v => [(k, v)]
  | p :: rest, k, v => if p.1 == k then (k, v) :: rest else p :: dictSet rest k v

/-- Dict deletion `del d[k]`. -/
def dictRemove {α : Type} (d : List (String × α)) (k : String) : List (String × α) :=
  d.filter (fun p => p.1 != k)

/-- `add_message_to_batch(user_id, message_data)` (lines 275–292):
append to `user_message_buffer[user_id]` (a `defaultdict(list)`), cancel any
existing timer for the key, and arm a fresh timer (`tid` models the new
`threading.Timer` object). -/
def addMessageToBatch (userId : String) (m : Msg) (tid : Nat) (st : ServerState) : ServerState :=
  let st1 := { st with buffer := dictSet st.buffer userId (((dictGet st.buffer userId).getD []) ++ [m]) }
  { st1 with timers := dictSet st1.timers userId tid }

/-- The buffer/timer bookkeeping prefix of `process_user_batch(user_id)`
(lines 309–318): guard (`user_id not in user_message_buffer or not
user_message_buffer[user_id]` → no-op), snapshot (`messages =
user_message_buffer[user_id].copy()`), clear
(`user_message_buffer[user_id] = []`), and timer-entry deletion.  Returns
the snapshot handed to the pipeline, and the state afterwards. -/
def processUserBatchBookkeeping (userId : String) (st : ServerState) : Option (List Msg) × ServerState :=
  match dictGet st.buffer userId with
  | none => (none, st)
  | some [] => (none, st)
  | some msgs =>
    (some msgs,
      { st with
        buffer := dictSet st.buffer userId []
        timers := dictRemove st.timers userId })

/-- Modelled from the spec: the `src.database` module (the `Message` model
and its schema) is not under `src/`; only its caller
`process_message_event_with_batch` is.  Per the spec's data model
(`id`: unique event id, used for idempotency and de-duplication), inserting
a record whose `line_message_id` is already stored fails the commit
(`none`, the raised integrity error); otherwise the row is appended. -/
def insertMessage (st : ServerState) (rec : StoredMessage) : Option ServerState :=
  if st.store.any (fun r => r.lineMessageId == rec.lineMessageId) then none
  else some { st with store := st.store ++ [rec] }

/-- The per-item image-enrichment result (lines 169–185): `none` models the
Gemini call raising, `some s` its returned text.  Failure or an
effectively-empty result is replaced by a sentinel description. -/
def analyzedImageText (analysis : Option String) : String :=
  match analysis with
  | none => "【画像】画像が投稿されました（解析エラー）"
  | some s =>
    if s.trim == "" then "【画像】画像が投稿されました（解析失敗）"
    else "【画像解析結果】" ++ s.trim

/-- `process_message_event_with_batch(event_data)` (lines 115–273).
`analysis` is the Gemini image-description oracle, `imgur` the Imgur-upload
oracle (`none` = failed upload), `tid` the fresh timer created by the final
`add_message_to_batch` call.  Missing `userId`/`message id` → early return;
unsupported message types → early return; a failed insert (duplicate id)
raises and is caught by the surrounding handler, so nothing is enqueued. -/
def processMessageEventWithBatch (ev : Event) (analysis : Option String) (imgur : Option String) (tid : Nat) (st : ServerState) : ServerState :=
  match ev.userId, ev.messageId with
  | some u, some mid =>
    if ev.messageType == "text" then
      match insertMessage st ⟨mid, u, "text", ev.text, none, false⟩ with
      | none => st
      | some st1 => addMessageToBatch u ⟨mid, u, "text", ev.text, none, none⟩ tid st1
    else if ev.messageType == "image" then
      let content := analyzedImageText analysis
      let path := "uploads/" ++ mid ++ ".jpg"
      match insertMessage st ⟨mid, u, "image", content, some path, false⟩ with
      | none => st
      | some st1 => addMessageToBatch u ⟨mid, u, "image", content, some path, imgur⟩ tid st1
    else if ev.messageType == "video" then
      let path := "uploads/" ++ mid ++ ".mp4"
      let content := "Video: " ++ path
      match insertMessage st ⟨mid, u, "video", content, some path, false⟩ with
      | none => st
      | some st1 => addMessageToBatch u ⟨mid, u, "video", content, some path, none⟩ tid st1
    else st
  | _, _ => st

/-- Decoding outcome of `json.loads(body)`: `none` = malformed JSON (the
raised exception), `some evs` = the decoded `events` array (missing or empty
`events` = `some []`, handled identically by the loop). -/
def ParsedBody : Type := Option (List Event)

/-- `line_webhook()` (lines 64–113).  Returns `(response body, status)` and
the new state.  NOTE (faithful to the source): after the presence checks the
code logs "DEBUGGING: Skipping signature validation" and never verifies the
signature, so the `signatureValid` argument is ignored; a JSON decode error
is caught and answered with status 500. -/
def lineWebhook (signature : Option String) (_signatureValid : Bool) (body : String) (parsed : ParsedBody) (analysisOf imgurOf : String → Option String) (st : ServerState) : (String × Nat) × ServerState :=
  match signature with
  | none => (("X-Line-Signature header is missing", 400), st)
  | some _ =>
    if body == "" then (("Request body is empty", 400), st)
    else
      match parsed with
      | none => (("Internal server error", 500), st)
      | some evs =>
        let st1 := evs.foldl
          (fun s ev =>
            if ev.eventType == "message" then
              processMessageEventWithBatch ev
                ((ev.messageId.map analysisOf).getD none)
                ((ev.messageId.map imgurOf).getD none) 0 s
            else s) st
        (("OK", 200), st1)

/-- `text_messages = [msg for msg in messages if msg['message_type'] == 'text']`
(line 323). -/
def textMessagesOf (messages : List Msg) : List Msg :=
  messages.filter (fun m => m.messageType == "text")

/-- Line 324. -/
def imageMessagesOf (messages : List Msg) : List Msg :=
  messages.filter (fun m => m.messageType == "image")

/-- Line 325. -/
def videoMessagesOf (messages : List Msg) : List Msg :=
  messages.filter (fun m => m.messageType == "video")

/-- The `all_texts` list built by `create_integrated_content_fixed`
(lines 410–422): all text messages first, then image messages with a
non-empty description, then video messages with a non-empty description. -/
def allTextLines (messages : List Msg) : List String :=
  (textMessagesOf messages).map (fun m => "【メッセージ】" ++ m.content)
    ++ ((imageMessagesOf messages).filter (fun m => m.content != "")).map
        (fun m => "【画像説明】" ++ m.content)
    ++ ((videoMessagesOf messages).filter (fun m => m.content != "")).map
        (fun m => "【動画説明】" ++ m.content)

/-- `combined_all_text = '\n'.join(all_texts)` (line 424). -/
def combinedAllText (messages : List Msg) : String :=
  String.intercalate "\n" (allTextLines messages)

/-- The messages contributing a line to the combined prompt, in the order
in which `create_integrated_content_fixed` emits them (the source-level
counterpart of `allTextLines`). -/
def promptContributors (messages : List Msg) : List Msg :=
  textMessagesOf messages
    ++ (imageMessagesOf messages).filter (fun m => m.content != "")
    ++ (videoMessagesOf messages).filter (fun m => m.content != "")

/-- The prompt line a contributing message renders to (its prefix is chosen
by the kind-specific loop the message belongs to). -/
def renderLine (m : Msg) : String :=
  if m.messageType == "text" then "【メッセージ】" ++ m.content
  else if m.messageType == "image" then "【画像説明】" ++ m.content
  else "【動画説明】" ++ m.content

/-- Modelled from the spec's words, for comparison with `allTextLines`:
"the ordered, enriched items are concatenated (preserving `arrivedAt`
order)" — the contributing items in arrival order, kinds interleaved. -/
def specArrivalContributors (messages : List Msg) : List Msg :=
  messages.filter
    (fun m => m.messageType == "text"
      || ((m.messageType == "image" || m.messageType == "video") && m.content != ""))

/-- `re.subn(re.escape(pat), pat + repl-tail, s, count=1)` for a literal
pattern: replace the first occurrence of `pat` in `s` by `repl`, reporting
whether a replacement happened. -/
def replaceFirst (s pat repl : String) : String × Bool :=
  match s.splitOn pat with
  | [] => (s, false)
  | [_] => (s, false)
  | first :: rest => (first ++ repl ++ String.intercalate pat rest, true)

/-- The `<p><img …></p>` tag built at lines 557 and 603 and 614. -/
def imgHtmlTag (url alt : String) : String :=
  "<p><img src=\"" ++ url ++ "\" alt=\"" ++ alt
    ++ "\" style=\"max-width: 80%; height: auto; display: block; margin: 20px auto; border: 1px solid #ddd; border-radius: 8px;\"></p>"

/-- The matched-pair insertion loop of `insert_imgur_urls_to_content`
(lines 601–609): walk the `(description, url)` pairs with their 1-based
`enumerate` index, skipping urls already used, inserting the tag right
after the first occurrence of the description. -/
def insertPairs : String → List String → Nat → List (String × String) → String
  | content, _, _, [] => content
  | content, used, i, (desc, url) :: rest =>
    if used.contains url then insertPairs content used (i + 1) rest
    else
      let tag := imgHtmlTag url ("画像" ++ toString i)
      let (c1, ok) := replaceFirst content desc (desc ++ "\n" ++ tag)
      insertPairs c1 (if ok then used ++ [url] else used) (i + 1) rest

/-- `insert_imgur_urls_to_content(content, image_messages)` (lines 573–625):
pair each uploaded image with its non-empty stripped description, insert
tags after matching descriptions, and append the unmatched ones at the end. -/
def insertImgurUrlsToContent (content : String) (imageMessages : List Msg) : String :=
  if imageMessages.isEmpty then content
  else
    let pairs := imageMessages.filterMap
      (fun m => m.imgurUrl.bind
        (fun url => if m.content.trim != "" then some (m.content.trim, url) else none))
    let unmatched := imageMessages.filterMap
      (fun m => m.imgurUrl.bind
        (fun url => if m.content.trim == "" then some url else none))
    let afterPairs := insertPairs content [] 1 pairs
    if unmatched.isEmpty then afterPairs
    else
      afterPairs ++ "\n\n"
        ++ String.intercalate "\n"
            (unmatched.enum.map (fun p => imgHtmlTag p.2 ("画像(末尾)" ++ toString (p.1 + 1))))

/-- The success message sent at lines 342–346 (the Python source writes
literal `\\n`, i.e. a backslash followed by `n`, inside the f-string). -/
def successMessage (textCount imageCount videoCount : Nat) (url : String) : String :=
  "📝 統合記事を投稿しました！\\n\\n💫 テキスト" ++ toString textCount ++ "件、画像"
    ++ toString imageCount ++ "件、動画" ++ toString videoCount
    ++ "件を組み合わせました\\n🔗 " ++ url

/-- One `Article` row as created at lines 349–369. -/
structure ArticleRec where
  title : String
  content : String
  hatenaUrl : String
  published : Bool
  status : String
  sourceMessageIds : List String
  imagePaths : List String
  videoPath : Option String
deriving DecidableEq, Repr

/-- The externally observable outcome of one batch run: the calls made to
`hatena_service.post_article`, the `Article` rows committed, the message ids
marked `processed = True`, and the `line_service.send_message`
notifications `(user_id, text)`. -/
structure BatchOutcome where
  publishCalls : List (String × String)
  articles : List ArticleRec
  processedIds : List String
  notifications : List (String × String)
deriving DecidableEq, Repr

/-- The pipeline suffix of `process_user_batch` (lines 322–391), run on the
snapshot `messages`.  `synthResult` is the `(title, integrated_content)`
pair returned by `create_integrated_content_fixed` (`none` models its
exception path returning `(None, None)`); `publish` is the
`hatena_service.post_article` collaborator (`none` = no url returned).
Python truthiness of `if integrated_content and title:` means both must be
non-empty to proceed. -/
def processUserBatchPipeline (userId : String) (messages : List Msg) (synthResult : Option (String × String)) (publish : String → String → Option String) : BatchOutcome :=
  match synthResult with
  | none =>
    { publishCalls := [], articles := [], processedIds := [],
      notifications := [(userId, "❌ コンテンツの生成に失敗しました。")] }
  | some (title, integratedContent) =>
    if integratedContent != "" && title != "" then
      let imageMsgs := imageMessagesOf messages
      let videoMsgs := videoMessagesOf messages
      let finalContent := insertImgurUrlsToContent integratedContent imageMsgs
      match publish title finalContent with
      | some url =>
        let textCount := (textMessagesOf messages).length
        let article : ArticleRec :=
          { title := title
            content := finalContent
            hatenaUrl := url
            published := true
            status := "published"
            sourceMessageIds := messages.map (fun m => m.lineMessageId)
            imagePaths := imageMsgs.filterMap (fun m => m.filePath)
            videoPath := (videoMsgs.filterMap (fun m => m.filePath)).head? }
        { publishCalls := [(title, finalContent)]
          articles := [article]
          processedIds := messages.map (fun m => m.lineMessageId)
          notifications :=
            [(userId, successMessage textCount imageMsgs.length videoMsgs.length url)] }
      | none =>
        { publishCalls := [(title, finalContent)], articles := [], processedIds := [],
          notifications := [(userId, "❌ 統合記事の投稿に失敗しました。")] }
    else
      { publishCalls := [], articles := [], processedIds := [],
        notifications := [(userId, "❌ コンテンツの生成に失敗しました。")] }

/-!
## Timed debounce semantics (single key, sequential)

`add_message_to_batch` cancels the key's pending `threading.Timer` and arms
a fresh one with delay `BATCH_INTERVAL` (`W`); the timer, when it reaches
its deadline uncancelled, runs `process_user_batch`, which snapshots and
clears the buffer.  For one key this is the standard timed semantics below:
a state is the buffer plus the armed deadline; an arrival at time `t` first
lets a due timer fire (deadline ≤ `t`), then appends the item and re-arms
the deadline to `t + W`; after the last arrival the pending timer fires. -/

/-- Run the debounce loop over time-stamped arrivals, returning the list of
flushed batches in order.  `buf`/`deadline` are the key's buffer and armed
timer deadline. -/
def runDebounceAux (W : Nat) : List Msg → Option Nat → List (Nat × Msg) → List (List Msg)
  | buf, _, [] => if buf = [] then [] else [buf]
  | buf, none, (t, m) :: rest => runDebounceAux W (buf ++ [m]) (some (t + W)) rest
  | buf, some d, (t, m) :: rest =>
    if d ≤ t then
      if buf = [] then runDebounceAux W [m] (some (t + W)) rest
      else buf :: runDebounceAux W [m] (some (t + W)) rest
    else
      runDebounceAux W (buf ++ [m]) (some (t + W)) rest

/-- Debounce run from the empty initial state. -/
def runDebounce (W : Nat) (events : List (Nat × Msg)) : List (List Msg) :=
  runDebounceAux W [] none events

/-!
## The enqueue/flush race (C1)

`process_user_batch` performs `messages = buffer[u].copy()` and
`buffer[u] = []` as two separate statements with **no lock**, so an
`add_message_to_batch` running on a request thread can interleave between
them.  The primitive steps below each embed one statement; `raceRun`
composes them in the order fixed by the chosen interleaving point of the
enqueue inside the in-flight flush. -/

/-- Enqueue step 1 (line 280): `user_message_buffer[user_id].append(m)`. -/
def enqAppend (u : String) (m : Msg) (st : ServerState) : ServerState :=
  { st with buffer := dictSet st.buffer u (((dictGet st.buffer u).getD []) ++ [m]) }

/-- Enqueue steps 2–3 (lines 284–290): cancel the existing timer and store
the freshly armed one. -/
def enqArm (u : String) (tid : Nat) (st : ServerState) : ServerState :=
  { st with timers := dictSet st.timers u tid }

/-- Flush step (line 313): `messages = user_message_buffer[user_id].copy()`
(read only). -/
def flushSnapshot (u : String) (st : ServerState) : List Msg :=
  (dictGet st.buffer u).getD []

/-- Flush step (line 316): `user_message_buffer[user_id] = []`. -/
def flushClear (u : String) (st : ServerState) : ServerState :=
  { st with buffer := dictSet st.buffer u [] }

/-- Flush steps (lines 317–318): `del user_batch_timers[user_id]` if present. -/
def flushDelTimer (u : String) (st : ServerState) : ServerState :=
  { st with timers := dictRemove st.timers u }

/-- Where the whole enqueue call lands relative to the in-flight flush's
snapshot (line 313) and clear (line 316). -/
inductive RacePos where
  | beforeSnapshot
  | betweenSnapshotAndClear
  | afterClear
deriving DecidableEq, Repr

/-- One flush of a non-empty buffer racing one enqueue of `m2`: compose the
primitive steps in the order given by `pos`.  Returns the snapshot the
flush publishes and the state once both calls have finished. -/
def raceRun (u : String) (m2 : Msg) (tid2 : Nat) (st : ServerState) : RacePos → List Msg × ServerState
  | .beforeSnapshot =>
    let st1 := enqArm u tid2 (enqAppend u m2 st)
    let snap := flushSnapshot u st1
    (snap, flushDelTimer u (flushClear u st1))
  | .betweenSnapshotAndClear =>
    let snap := flushSnapshot u st
    let st1 := enqArm u tid2 (enqAppend u m2 st)
    (snap, flushDelTimer u (flushClear u st1))
  | .afterClear =>
    let snap := flushSnapshot u st
    let st1 := flushDelTimer u (flushClear u st)
    (snap, enqArm u tid2 (enqAppend u m2 st1))

/-- All batches published for key `u` by the racy execution: the in-flight
flush's snapshot, then — only if a timer survived for `u` — the batch taken
when that timer later fires (`process_user_batch` again, whose empty-buffer
guard makes an empty fire a no-op). -/
def racePublished (u : String) (m2 : Msg) (tid2 : Nat) (st : ServerState) (pos : RacePos) : List (List Msg) :=
  let (snap, st1) := raceRun u m2 tid2 st pos
  let nextBatch :=
    match dictGet st1.timers u with
    | none => none
    | some _ => (processUserBatchBookkeeping u st1).1
  (if snap = [] then [] else [snap]) ++
    (match nextBatch with
     | none => []
     | some b => [b])

/-!
## Helper lemmas on the dict model
-/

theorem dictGet_dictSet_self {α : Type} (d : List (String × α)) (k : String) (v : α) :
    dictGet (dictSet d k v) k = some v := by
  induction d with
  | nil => simp [dictGet, dictSet]
  | cons p rest ih =>
    by_cases h : p.1 == k
    · simp [dictSet, dictGet, h]
    · simp [dictSet, dictGet, h, ih]

theorem dictGet_dictRemove_self {α : Type} (d : List (String × α)) (k : String) :
    dictGet (dictRemove d k) k = none := by
  induction d with
  | nil => rfl
  | cons p rest ih =>
    by_cases h : p.1 == k
    · have hb : (p.1 != k) = false := by simp [bne, h]
      simpa [dictRemove, List.filter_cons, hb] using ih
    · have hb : (p.1 != k) = true := by simp [bne, h]
      simpa [dictRemove, List.filter_cons, hb, dictGet, h] using ih

theorem mem_keys_dictSet {α : Type} (d : List (String × α)) (k : String) (v : α) (x : String) :
    x ∈ (dictSet d k v).map Prod.fst → x ∈ d.map Prod.fst ∨ x = k := by
  induction d with
  | nil => intro hx; exact Or.inr (by simpa [dictSet] using hx)
  | cons p rest ih =>
    intro hx
    by_cases h : p.1 == k
    · simp only [dictSet, if_pos h, List.map_cons] at hx
      rcases List.mem_cons.mp hx with h1 | h1
      · exact Or.inr h1
      · exact Or.inl (List.mem_cons_of_mem _ h1)
    · simp only [dictSet, if_neg h, List.map_cons] at hx
      rcases List.mem_cons.mp hx with h1 | h1
      · exact Or.inl (by simp [h1])
      · rcases ih h1 with h2 | h2
        · exact Or.inl (List.mem_cons_of_mem _ h2)
        · exact Or.inr h2

theorem nodup_keys_dictSet {α : Type} (d : List (String × α)) (k : String) (v : α)
    (hd : (d.map Prod.fst).Nodup) : ((dictSet d k v).map Prod.fst).Nodup := by
  induction d with
  | nil => simp [dictSet]
  | cons p rest ih =>
    rw [List.map_cons, List.nodup_cons] at hd
    by_cases h : p.1 == k
    · have hk : p.1 = k := by simpa using h
      simp only [dictSet, if_pos h, List.map_cons, List.nodup_cons]
      exact ⟨hk ▸ hd.1, hd.2⟩
    · simp only [dictSet, if_neg h, List.map_cons, List.nodup_cons]
      refine ⟨fun hmem => ?_, ih hd.2⟩
      rcases mem_keys_dictSet rest k v p.1 hmem with h1 | h1
      · exact hd.1 h1
      · exact h (by simp [h1])

theorem nodup_keys_dictRemove {α : Type} (d : List (String × α)) (k : String)
    (hd : (d.map Prod.fst).Nodup) : ((dictRemove d k).map Prod.fst).Nodup := by
  have hsub : List.Sublist (dictRemove d k) d := List.filter_sublist d
  exact List.Nodup.sublist (List.Sublist.map Prod.fst hsub) hd

theorem runDebounceAux_nil_eq (W : Nat) (buf : List Msg) (dl : Option Nat) :
    runDebounceAux W buf dl [] = if buf = [] then [] else [buf] := by
  cases dl <;> rfl

theorem runDebounceAux_cons_some_eq (W : Nat) (buf : List Msg) (d t : Nat) (m : Msg)
    (rest : List (Nat × Msg)) :
    runDebounceAux W buf (some d) ((t, m) :: rest) =
      if d ≤ t then
        (if buf = [] then runDebounceAux W [m] (some (t + W)) rest
         else buf :: runDebounceAux W [m] (some (t + W)) rest)
      else runDebounceAux W (buf ++ [m]) (some (t + W)) rest := rfl

theorem runDebounceAux_cons_none_eq (W : Nat) (buf : List Msg) (t : Nat) (m : Msg)
    (rest : List (Nat × Msg)) :
    runDebounceAux W buf none ((t, m) :: rest) =
      runDebounceAux W (buf ++ [m]) (some (t + W)) rest := rfl

/-- While every inter-arrival gap stays below the armed deadline, the
debounce loop never flushes: all items accumulate into the single batch
emitted when the final timer fires. -/
theorem runDebounceAux_noFlush (W : Nat) (rest : List (Nat × Msg)) :
    ∀ (buf : List Msg) (d t : Nat) (m : Msg),
      List.Chain' (fun a b => b.1 < a.1 + W) ((t, m) :: rest) →
      t < d → buf ≠ [] →
      runDebounceAux W buf (some d) ((t, m) :: rest) = [buf ++ m :: rest.map Prod.snd] := by
  induction rest with
  | nil =>
    intro buf d t m _ htd hbuf
    have h1 : ¬ d ≤ t := Nat.not_le.mpr htd
    rw [runDebounceAux_cons_some_eq, if_neg h1, runDebounceAux_nil_eq, if_neg (by simp)]
    simp
  | cons e rest2 ih =>
    intro buf d t m hchain htd hbuf
    have h1 : ¬ d ≤ t := Nat.not_le.mpr htd
    obtain ⟨t2, m2⟩ := e
    have hR : t2 < t + W := (List.chain'_cons.mp hchain).1
    have hchain2 := (List.chain'_cons.mp hchain).2
    have hstep := ih (buf ++ [m]) (t + W) t2 m2 hchain2 hR (by simp)
    rw [runDebounceAux_cons_some_eq, if_neg h1, hstep]
    simp

/-- Sample messages used by the concrete witnesses below. -/
def msgTextA : Msg := ⟨"A", "U", "text", "hello", none, none⟩

def msgImageB : Msg := ⟨"B", "U", "image", "a cat", none, none⟩

/-- C2: each enqueue re-arms the key's timer (`add_message_to_batch` cancels
the pending timer and stores the fresh one), so under the timed debounce
semantics a sequence of N ≥ 1 arrivals with inter-arrival gaps < W collapses
into exactly one flush holding all N items in arrival order, while two
arrivals separated by a gap ≥ W produce two separate flushes. -/
theorem C2_debounce_collapse_and_window_restart (W : Nat) :
    (∀ (u : String) (m : Msg) (tid : Nat) (st : ServerState),
        dictGet (addMessageToBatch u m tid st).timers u = some tid) ∧
    (∀ (t1 : Nat) (m1 : Msg) (rest : List (Nat × Msg)),
        List.Chain' (fun a b => b.1 < a.1 + W) ((t1, m1) :: rest) →
        runDebounce W ((t1, m1) :: rest) = [m1 :: rest.map Prod.snd]) ∧
    (∀ (t1 t2 : Nat) (m1 m2 : Msg), t1 + W ≤ t2 →
        runDebounce W [(t1, m1), (t2, m2)] = [[m1], [m2]]) := by
  refine ⟨?_, ?_, ?_⟩
  · intro u m tid st
    simp [addMessageToBatch, dictGet_dictSet_self]
  · intro t1 m1 rest hchain
    cases rest with
    | nil =>
      rw [runDebounce, runDebounceAux_cons_none_eq, runDebounceAux_nil_eq, if_neg (by simp)]
      simp
    | cons e rest2 =>
      obtain ⟨t2, m2⟩ := e
      have hR : t2 < t1 + W := (List.chain'_cons.mp hchain).1
      have hchain2 := (List.chain'_cons.mp hchain).2
      have hstep := runDebounceAux_noFlush W rest2 [m1] (t1 + W) t2 m2 hchain2 hR (by simp)
      rw [runDebounce, runDebounceAux_cons_none_eq]
      simp only [List.nil_append]
      rw [hstep]
      simp
  · intro t1 t2 m1 m2 h
    rw [runDebounce, runDebounceAux_cons_none_eq]
    simp only [List.nil_append]
    rw [runDebounceAux_cons_some_eq, if_pos h, if_neg (by simp), runDebounceAux_nil_eq,
      if_neg (by simp)]

/-- Witness for C2 at W = 2: arrivals at times 0 and 1 (gap < 2) collapse
into one batch; arrivals at times 0 and 2 (gap ≥ 2) flush twice. -/
theorem C2_debounce_witness :
    runDebounce 2 [(0, msgTextA), (1, msgImageB)] = [[msgTextA, msgImageB]] ∧
    runDebounce 2 [(0, msgTextA), (2, msgImageB)] = [[msgTextA], [msgImageB]] := by
  constructor
  · have h := (C2_debounce_collapse_and_window_restart 2).2.1 0 msgTextA [(1, msgImageB)]
      (List.chain'_cons.mpr ⟨by norm_num, List.chain'_singleton _⟩)
    simpa using h
  · exact (C2_debounce_collapse_and_window_restart 2).2.2 0 2 msgTextA msgImageB (by decide)

/-- C1 (amended): the snapshot (`buffer.copy()`) and the clear
(`buffer[u] = []`) of `process_user_batch` are two separate unlocked
statements, so for an enqueue racing the flush: an item appended before the
snapshot joins the snapshot batch, an item appended after the clear appears
in the next flush, and no item is ever published twice — but an item
appended **between** the snapshot and the clear is silently dropped: it
appears in no published batch. -/
theorem C1_race_snapshot_clear_amended (u : String) (m1 m2 : Msg) (tid0 tid2 : Nat)
    (store : List StoredMessage) (h : m1 ≠ m2) :
    racePublished u m2 tid2 ⟨[(u, [m1])], [(u, tid0)], store⟩ RacePos.beforeSnapshot
        = [[m1, m2]] ∧
    racePublished u m2 tid2 ⟨[(u, [m1])], [(u, tid0)], store⟩ RacePos.betweenSnapshotAndClear
        = [[m1]] ∧
    (∀ b ∈ racePublished u m2 tid2 ⟨[(u, [m1])], [(u, tid0)], store⟩
        RacePos.betweenSnapshotAndClear, m2 ∉ b) ∧
    racePublished u m2 tid2 ⟨[(u, [m1])], [(u, tid0)], store⟩ RacePos.afterClear
        = [[m1], [m2]] ∧
    (∀ pos : RacePos,
      (racePublished u m2 tid2 ⟨[(u, [m1])], [(u, tid0)], store⟩ pos).flatten.count m2 ≤ 1 ∧
      (racePublished u m2 tid2 ⟨[(u, [m1])], [(u, tid0)], store⟩ pos).flatten.count m1 = 1) := by
  have e1 : racePublished u m2 tid2 ⟨[(u, [m1])], [(u, tid0)], store⟩ RacePos.beforeSnapshot
      = [[m1, m2]] := by
    simp [racePublished, raceRun, enqAppend, enqArm, flushSnapshot, flushClear, flushDelTimer,
      dictGet, dictSet, dictRemove, processUserBatchBookkeeping]
  have e2 : racePublished u m2 tid2 ⟨[(u, [m1])], [(u, tid0)], store⟩
      RacePos.betweenSnapshotAndClear = [[m1]] := by
    simp [racePublished, raceRun, enqAppend, enqArm, flushSnapshot, flushClear, flushDelTimer,
      dictGet, dictSet, dictRemove, processUserBatchBookkeeping]
  have e3 : racePublished u m2 tid2 ⟨[(u, [m1])], [(u, tid0)], store⟩ RacePos.afterClear
      = [[m1], [m2]] := by
    simp [racePublished, raceRun, enqAppend, enqArm, flushSnapshot, flushClear, flushDelTimer,
      dictGet, dictSet, dictRemove, processUserBatchBookkeeping]
  have hb12 : (m1 == m2) = false := beq_eq_false_iff_ne.mpr h
  have hb21 : (m2 == m1) = false := beq_eq_false_iff_ne.mpr (Ne.symm h)
  refine ⟨e1, e2, ?_, e3, ?_⟩
  · intro b hb
    rw [e2] at hb
    rcases List.mem_singleton.mp hb with rfl
    intro hmem
    exact h (List.mem_singleton.mp hmem).symm
  · intro pos
    cases pos
    · rw [e1]
      simp [List.count_cons, List.count_nil, hb12, hb21]
    · rw [e2]
      simp [List.count_cons, List.count_nil, hb12, hb21]
    · rw [e3]
      simp [List.count_cons, List.count_nil, hb12, hb21]

/-- C1 counterexample: with the buffer holding `msgTextA` and its fired
timer in flight, an enqueue of `msgImageB` landing between the flush's
snapshot and clear leaves `msgImageB` in **no** published batch — the claim
"an item appended between the snapshot and the clear must appear in the
next flush, never be lost" is false of the code. -/
theorem C1_counterexample :
    racePublished "U" msgImageB 1 ⟨[("U", [msgTextA])], [("U", 0)], []⟩
        RacePos.betweenSnapshotAndClear = [[msgTextA]] ∧
    ∀ b ∈ racePublished "U" msgImageB 1 ⟨[("U", [msgTextA])], [("U", 0)], []⟩
        RacePos.betweenSnapshotAndClear, msgImageB ∉ b := by
  decide

/-- Witness for C1 (amended) at a concrete input. -/
theorem C1_race_witness :
    msgTextA ≠ msgImageB ∧
    racePublished "U" msgImageB 1 ⟨[("U", [msgTextA])], [("U", 0)], []⟩ RacePos.afterClear
      = [[msgTextA], [msgImageB]] :=
  ⟨by decide,
    (C1_race_snapshot_clear_amended "U" msgTextA msgImageB 0 1 [] (by decide)).2.2.2.1⟩

/-- C4 (amended): the timers dict holds at most one live timer per key and
both `add_message_to_batch` and `process_user_batch` preserve that; a flush
deletes the key's timer entry — but the key's buffer entry is reset to `[]`
and **left in the map** as a zero-length placeholder, not removed. -/
theorem C4_timer_and_placeholder_amended (u : String) (st : ServerState) (msgs : List Msg)
    (m : Msg) (tid : Nat) (hbuf : dictGet st.buffer u = some msgs) (hne : msgs ≠ []) :
    dictGet ((processUserBatchBookkeeping u st).2).buffer u = some [] ∧
    dictGet ((processUserBatchBookkeeping u st).2).timers u = none ∧
    ((st.timers.map Prod.fst).Nodup →
      (((processUserBatchBookkeeping u st).2).timers.map Prod.fst).Nodup) ∧
    ((st.timers.map Prod.fst).Nodup →
      ((addMessageToBatch u m tid st).timers.map Prod.fst).Nodup) := by
  cases msgs with
  | nil => exact absurd rfl hne
  | cons a l =>
    have hred : (processUserBatchBookkeeping u st).2 =
        { st with buffer := dictSet st.buffer u [], timers := dictRemove st.timers u } := by
      simp [processUserBatchBookkeeping, hbuf]
    refine ⟨?_, ?_, ?_, ?_⟩
    · rw [hred]
      exact dictGet_dictSet_self _ _ _
    · rw [hred]
      exact dictGet_dictRemove_self _ _
    · intro hnd
      rw [hred]
      exact nodup_keys_dictRemove _ _ hnd
    · intro hnd
      exact nodup_keys_dictSet _ _ _ hnd

/-- C4 counterexample: after a flush of the one-message buffer for key
`"U"`, the buffer dict still contains the key, bound to the empty list —
the claim "the window entry is removed from the map, never left behind as a
zero-length placeholder" is false of the code. -/
theorem C4_counterexample :
    dictGet ((processUserBatchBookkeeping "U"
        ⟨[("U", [msgTextA])], [("U", 0)], []⟩).2).buffer "U" ≠ none ∧
    dictGet ((processUserBatchBookkeeping "U"
        ⟨[("U", [msgTextA])], [("U", 0)], []⟩).2).buffer "U" = some [] := by
  decide

/-- Witness for C4 (amended) at a concrete input. -/
theorem C4_timer_witness :
    ([msgTextA] : List Msg) ≠ [] ∧
    dictGet ((processUserBatchBookkeeping "U"
        ⟨[("U", [msgTextA])], [("U", 0)], []⟩).2).timers "U" = none :=
  ⟨by decide,
    (C4_timer_and_placeholder_amended "U" ⟨[("U", [msgTextA])], [("U", 0)], []⟩ [msgTextA]
      msgTextA 5 (by decide) (by decide)).2.1⟩

/-- C5 (amended): the batch-synthesis prompt is built **grouped by kind** —
every text message first, then every image description, then every video
description.  Within each kind arrival order is preserved (the prompt
restricted to one kind is exactly the arrival-ordered filter of the batch),
and each contributing message renders to exactly one line; but arrival
order is not preserved across kinds. -/
theorem C5_prompt_grouped_order (messages : List Msg) :
    allTextLines messages = (promptContributors messages).map renderLine ∧
    (promptContributors messages).filter (fun m => m.messageType == "text")
      = textMessagesOf messages ∧
    (promptContributors messages).filter (fun m => m.messageType == "image")
      = (imageMessagesOf messages).filter (fun m => m.content != "") ∧
    (promptContributors messages).filter (fun m => m.messageType == "video")
      = (videoMessagesOf messages).filter (fun m => m.content != "") := by
  have htext : ∀ m ∈ textMessagesOf messages, m.messageType = "text" := by
    intro m hm
    simpa using (List.mem_filter.mp hm).2
  have himg : ∀ m ∈ (imageMessagesOf messages).filter (fun m => m.content != ""),
      m.messageType = "image" := by
    intro m hm
    simpa using (List.mem_filter.mp (List.mem_filter.mp hm).1).2
  have hvid : ∀ m ∈ (videoMessagesOf messages).filter (fun m => m.content != ""),
      m.messageType = "video" := by
    intro m hm
    simpa using (List.mem_filter.mp (List.mem_filter.mp hm).1).2
  have hrt : (textMessagesOf messages).map (fun m => "【メッセージ】" ++ m.content)
      = (textMessagesOf messages).map renderLine :=
    List.map_congr_left (fun m hm => by simp [renderLine, htext m hm])
  have hri : ((imageMessagesOf messages).filter (fun m => m.content != "")).map
        (fun m => "【画像説明】" ++ m.content)
      = ((imageMessagesOf messages).filter (fun m => m.content != "")).map renderLine :=
    List.map_congr_left (fun m hm => by simp [renderLine, himg m hm])
  have hrv : ((videoMessagesOf messages).filter (fun m => m.content != "")).map
        (fun m => "【動画説明】" ++ m.content)
      = ((videoMessagesOf messages).filter (fun m => m.content != "")).map renderLine :=
    List.map_congr_left (fun m hm => by simp [renderLine, hvid m hm])
  have ht_t : (textMessagesOf messages).filter (fun m => m.messageType == "text")
      = textMessagesOf messages :=
    List.filter_eq_self.mpr (fun m hm => by simp [htext m hm])
  have hi_t : ((imageMessagesOf messages).filter (fun m => m.content != "")).filter
      (fun m => m.messageType == "text") = [] :=
    List.filter_eq_nil_iff.mpr (fun m hm => by simp [himg m hm])
  have hv_t : ((videoMessagesOf messages).filter (fun m => m.content != "")).filter
      (fun m => m.messageType == "text") = [] :=
    List.filter_eq_nil_iff.mpr (fun m hm => by simp [hvid m hm])
  have ht_i : (textMessagesOf messages).filter (fun m => m.messageType == "image") = [] :=
    List.filter_eq_nil_iff.mpr (fun m hm => by simp [htext m hm])
  have hi_i : ((imageMessagesOf messages).filter (fun m => m.content != "")).filter
      (fun m => m.messageType == "image")
      = (imageMessagesOf messages).filter (fun m => m.content != "") :=
    List.filter_eq_self.mpr (fun m hm => by simp [himg m hm])
  have hv_i : ((videoMessagesOf messages).filter (fun m => m.content != "")).filter
      (fun m => m.messageType == "image") = [] :=
    List.filter_eq_nil_iff.mpr (fun m hm => by simp [hvid m hm])
  have ht_v : (textMessagesOf messages).filter (fun m => m.messageType == "video") = [] :=
    List.filter_eq_nil_iff.mpr (fun m hm => by simp [htext m hm])
  have hi_v : ((imageMessagesOf messages).filter (fun m => m.content != "")).filter
      (fun m => m.messageType == "video") = [] :=
    List.filter_eq_nil_iff.mpr (fun m hm => by simp [himg m hm])
  have hv_v : ((videoMessagesOf messages).filter (fun m => m.content != "")).filter
      (fun m => m.messageType == "video")
      = (videoMessagesOf messages).filter (fun m => m.content != "") :=
    List.filter_eq_self.mpr (fun m hm => by simp [hvid m hm])
  refine ⟨?_, ?_, ?_, ?_⟩
  · rw [allTextLines, promptContributors, List.map_append, List.map_append, hrt, hri, hrv]
  · rw [promptContributors, List.filter_append, List.filter_append, ht_t, hi_t, hv_t]
    simp
  · rw [promptContributors, List.filter_append, List.filter_append, ht_i, hi_i, hv_i]
    simp
  · rw [promptContributors, List.filter_append, List.filter_append, ht_v, hi_v, hv_v]
    simp

/-- C5 counterexample: for the batch [image, text] the prompt lines are
the text line first and the image line second — not the arrival
(`arrivedAt`) order the claim asserts. -/
theorem C5_counterexample :
    allTextLines [msgImageB, msgTextA]
      ≠ (specArrivalContributors [msgImageB, msgTextA]).map renderLine ∧
    allTextLines [msgImageB, msgTextA]
      = ["【メッセージ】hello", "【画像説明】a cat"] ∧
    (specArrivalContributors [msgImageB, msgTextA]).map renderLine
      = ["【画像説明】a cat", "【メッセージ】hello"] := by
  refine ⟨?_, rfl, rfl⟩
  decide

/-- Per-user-entry count of buffered messages carrying a given
`line_message_id`, summed over the whole `user_message_buffer` map — the
number of PendingItems with that id. -/
def midCount (mid : String) : List (String × List Msg) → Nat
  | [] => 0
  | p :: rest => (p.2.filter (fun m => m.lineMessageId == mid)).length + midCount mid rest

theorem midCount_zero (mid : String) :
    ∀ d : List (String × List Msg),
      (∀ p ∈ d, ∀ m ∈ p.2, m.lineMessageId ≠ mid) → midCount mid d = 0 := by
  intro d
  induction d with
  | nil => intro _; rfl
  | cons p rest ih =>
    intro h
    have h1 : p.2.filter (fun m => m.lineMessageId == mid) = [] :=
      List.filter_eq_nil_iff.mpr
        (fun m hm => by simp [h p (List.mem_cons_self p rest) m hm])
    have h2 := ih (fun q hq m hm => h q (List.mem_cons_of_mem p hq) m hm)
    simp only [midCount, h1, h2, List.length_nil]

theorem midCount_dictSet (mid : String) (item : Msg) (hitem : item.lineMessageId = mid) :
    ∀ (d : List (String × List Msg)) (k : String) (v : List Msg),
      (∀ p ∈ d, ∀ m ∈ p.2, m.lineMessageId ≠ mid) →
      (∀ m ∈ v, m.lineMessageId ≠ mid) →
      midCount mid (dictSet d k (v ++ [item])) = 1 := by
  intro d
  induction d with
  | nil =>
    intro k v _ hv
    have h1v : v.filter (fun m => m.lineMessageId == mid) = [] :=
      List.filter_eq_nil_iff.mpr (fun m hm => by simp [hv m hm])
    simp only [dictSet, midCount, List.filter_append, h1v]
    simp [hitem]
  | cons p rest ih =>
    intro k v h hv
    by_cases hk : p.1 == k
    · have h1v : v.filter (fun m => m.lineMessageId == mid) = [] :=
        List.filter_eq_nil_iff.mpr (fun m hm => by simp [hv m hm])
      have h0 : midCount mid rest = 0 :=
        midCount_zero mid rest (fun q hq m hm => h q (List.mem_cons_of_mem p hq) m hm)
      simp only [dictSet, if_pos hk, midCount, List.filter_append, h1v, h0]
      simp [hitem]
    · have h1 : p.2.filter (fun m => m.lineMessageId == mid) = [] :=
        List.filter_eq_nil_iff.mpr
          (fun m hm => by simp [h p (List.mem_cons_self p rest) m hm])
      simp only [dictSet, if_neg hk, midCount, h1, List.length_nil,
        ih k v (fun q hq m hm => h q (List.mem_cons_of_mem p hq) m hm) hv]

theorem dictGet_mem {α : Type} :
    ∀ (d : List (String × α)) (k : String) (v : α),
      dictGet d k = some v → ∃ p ∈ d, p.2 = v := by
  intro d
  induction d with
  | nil => intro k v h; simp [dictGet] at h
  | cons p rest ih =>
    intro k v h
    by_cases hk : p.1 == k
    · simp only [dictGet, if_pos hk] at h
      exact ⟨p, List.mem_cons_self p rest, Option.some.inj h⟩
    · simp only [dictGet, if_neg hk] at h
      obtain ⟨q, hq, hqv⟩ := ih k v h
      exact ⟨q, List.mem_cons_of_mem p hq, hqv⟩

/-- Whatever the duplicate delivery's kind, user or payload: once some
record carries its message id, `process_message_event_with_batch` is a
no-op for it — every branch's insert fails on the id and the caught
exception skips the enqueue. -/
theorem processMessageEvent_dup_noop (st : ServerState) (ev : Event) (mid : String)
    (a i : Option String) (tid : Nat) (hid : ev.messageId = some mid)
    (hmem : (st.store.any fun r => r.lineMessageId == mid) = true) :
    processMessageEventWithBatch ev a i tid st = st := by
  have hins : ∀ rec : StoredMessage, rec.lineMessageId = mid → insertMessage st rec = none := by
    intro rec hrec
    simp [insertMessage, hrec, hmem]
  cases hu : ev.userId with
  | none => simp [processMessageEventWithBatch, hu]
  | some u =>
    by_cases ht : ev.messageType == "text"
    · simp [processMessageEventWithBatch, hu, hid, ht, hins]
    · by_cases hi : ev.messageType == "image"
      · simp [processMessageEventWithBatch, hu, hid, ht, hi, hins]
      · by_cases hv : ev.messageType == "video"
        · simp [processMessageEventWithBatch, hu, hid, ht, hi, hv, hins]
        · simp [processMessageEventWithBatch, hu, hid, ht, hi, hv]

/-- After a first delivery has stored its record and enqueued its item (an
id-fresh state extended by one record and one buffered item carrying
`mid`), any second delivery with the same id changes nothing, and exactly
one stored record and one buffered item carry the id. -/
theorem ingestedState_dup_dropped (st : ServerState) (u1 mid : String) (item : Msg)
    (rec : StoredMessage) (tid1 : Nat) (hitem : item.lineMessageId = mid)
    (hrec : rec.lineMessageId = mid)
    (hstore : ∀ r ∈ st.store, r.lineMessageId ≠ mid)
    (hbuf : ∀ p ∈ st.buffer, ∀ m ∈ p.2, m.lineMessageId ≠ mid) :
    (∀ (ev2 : Event) (a2 i2 : Option String) (tid2 : Nat), ev2.messageId = some mid →
      processMessageEventWithBatch ev2 a2 i2 tid2
          (addMessageToBatch u1 item tid1 { st with store := st.store ++ [rec] })
        = addMessageToBatch u1 item tid1 { st with store := st.store ++ [rec] }) ∧
    ((addMessageToBatch u1 item tid1 { st with store := st.store ++ [rec] }).store.filter
        (fun r => r.lineMessageId == mid)).length = 1 ∧
    midCount mid
      (addMessageToBatch u1 item tid1 { st with store := st.store ++ [rec] }).buffer = 1 := by
  have hstoreProj :
      (addMessageToBatch u1 item tid1 { st with store := st.store ++ [rec] }).store
        = st.store ++ [rec] := rfl
  have hany : ((addMessageToBatch u1 item tid1
      { st with store := st.store ++ [rec] }).store.any
        fun r => r.lineMessageId == mid) = true := by
    rw [hstoreProj, List.any_eq_true]
    exact ⟨rec, by simp, by simp [hrec]⟩
  refine ⟨?_, ?_, ?_⟩
  · intro ev2 a2 i2 tid2 hid2
    exact processMessageEvent_dup_noop _ ev2 mid a2 i2 tid2 hid2 hany
  · rw [hstoreProj, List.filter_append,
      List.filter_eq_nil_iff.mpr (fun r hr => by simp [hstore r hr])]
    simp [hrec]
  · show midCount mid (dictSet st.buffer u1 (((dictGet st.buffer u1).getD []) ++ [item])) = 1
    refine midCount_dictSet mid item hitem st.buffer u1 _ hbuf ?_
    intro m hm
    cases hd : dictGet st.buffer u1 with
    | none => rw [hd] at hm; simp at hm
    | some l =>
      rw [hd] at hm
      obtain ⟨p, hp, hpl⟩ := dictGet_mem st.buffer u1 l hd
      exact hbuf p hp m (by rw [hpl]; simpa using hm)

/-- C3: ingestion is idempotent for duplicate message ids — for **every**
pair of inbound events sharing a message id (the first of any supported
kind: text, image or video; the second entirely arbitrary — any kind, any
user, any payload), the second delivery's insert fails on the
(spec-modelled) unique `line_message_id` constraint, the surrounding
handler absorbs the raised error before `add_message_to_batch`, so the
second delivery changes nothing and the pair leaves exactly one stored
`Message` record and exactly one buffered PendingItem carrying the id. -/
theorem C3_idempotent_ingestion (st : ServerState) (ev1 ev2 : Event) (u1 mid : String)
    (a1 a2 i1 i2 : Option String) (tid1 tid2 : Nat)
    (hu1 : ev1.userId = some u1) (hid1 : ev1.messageId = some mid)
    (hkind : ev1.messageType = "text" ∨ ev1.messageType = "image" ∨
      ev1.messageType = "video")
    (hid2 : ev2.messageId = some mid)
    (hstore : ∀ r ∈ st.store, r.lineMessageId ≠ mid)
    (hbuf : ∀ p ∈ st.buffer, ∀ m ∈ p.2, m.lineMessageId ≠ mid) :
    processMessageEventWithBatch ev2 a2 i2 tid2
        (processMessageEventWithBatch ev1 a1 i1 tid1 st)
      = processMessageEventWithBatch ev1 a1 i1 tid1 st ∧
    ((processMessageEventWithBatch ev2 a2 i2 tid2
        (processMessageEventWithBatch ev1 a1 i1 tid1 st)).store.filter
          (fun r => r.lineMessageId == mid)).length = 1 ∧
    midCount mid (processMessageEventWithBatch ev2 a2 i2 tid2
        (processMessageEventWithBatch ev1 a1 i1 tid1 st)).buffer = 1 := by
  have hany : (st.store.any fun r => r.lineMessageId == mid) = false := by
    rw [List.any_eq_false]
    intro r hr
    simpa using hstore r hr
  obtain ⟨item, rec, hitem, hrec, heq⟩ :
      ∃ (item : Msg) (rec : StoredMessage), item.lineMessageId = mid ∧
        rec.lineMessageId = mid ∧
        processMessageEventWithBatch ev1 a1 i1 tid1 st
          = addMessageToBatch u1 item tid1 { st with store := st.store ++ [rec] } := by
    rcases hkind with hk | hk | hk
    · exact ⟨⟨mid, u1, "text", ev1.text, none, none⟩,
        ⟨mid, u1, "text", ev1.text, none, false⟩, rfl, rfl,
        by simp [processMessageEventWithBatch, hu1, hid1, hk, insertMessage, hany]⟩
    · exact ⟨⟨mid, u1, "image", analyzedImageText a1,
          some ("uploads/" ++ mid ++ ".jpg"), i1⟩,
        ⟨mid, u1, "image", analyzedImageText a1,
          some ("uploads/" ++ mid ++ ".jpg"), false⟩, rfl, rfl,
        by simp [processMessageEventWithBatch, hu1, hid1, hk, insertMessage, hany]⟩
    · exact ⟨⟨mid, u1, "video", "Video: " ++ ("uploads/" ++ mid ++ ".mp4"),
          some ("uploads/" ++ mid ++ ".mp4"), none⟩,
        ⟨mid, u1, "video", "Video: " ++ ("uploads/" ++ mid ++ ".mp4"),
          some ("uploads/" ++ mid ++ ".mp4"), false⟩, rfl, rfl,
        by simp [processMessageEventWithBatch, hu1, hid1, hk, insertMessage, hany]⟩
  have hcore := ingestedState_dup_dropped st u1 mid item rec tid1 hitem hrec hstore hbuf
  have h1 : processMessageEventWithBatch ev2 a2 i2 tid2
      (processMessageEventWithBatch ev1 a1 i1 tid1 st)
      = processMessageEventWithBatch ev1 a1 i1 tid1 st := by
    rw [heq]
    exact hcore.1 ev2 a2 i2 tid2 hid2
  refine ⟨h1, ?_, ?_⟩
  · rw [h1, heq]
    exact hcore.2.1
  · rw [h1, heq]
    exact hcore.2.2

/-- Witness for C3 at a concrete input: a text event followed by an
image event from a different user, both with message id "A" — the second
delivery changes nothing. -/
theorem C3_idempotent_witness :
    processMessageEventWithBatch ⟨"message", some "V", some "A", "image", ""⟩ none none 1
        (processMessageEventWithBatch ⟨"message", some "U", some "A", "text", "hi"⟩ none none
          0 ⟨[], [], []⟩)
      = processMessageEventWithBatch ⟨"message", some "U", some "A", "text", "hi"⟩ none none
          0 ⟨[], [], []⟩ :=
  (C3_idempotent_ingestion ⟨[], [], []⟩ ⟨"message", some "U", some "A", "text", "hi"⟩
    ⟨"message", some "V", some "A", "image", ""⟩ "U" "A" none none none none 0 1
    rfl rfl (Or.inl rfl) rfl (by simp) (by simp)).1

/-- C6: when `hatena_service.post_article` returns no url, no message is
marked processed, no `Article` row is created, the origin user receives the
failure notification, and the publish collaborator was called exactly once
(no retry) — the failed batch is terminal. -/
theorem C6_publish_failure_terminal (u : String) (messages : List Msg) (title content : String)
    (publish : String → String → Option String)
    (hc : content ≠ "") (ht : title ≠ "")
    (hpub : publish title (insertImgurUrlsToContent content (imageMessagesOf messages))
      = none) :
    (processUserBatchPipeline u messages (some (title, content)) publish).processedIds = [] ∧
    (processUserBatchPipeline u messages (some (title, content)) publish).articles = [] ∧
    (processUserBatchPipeline u messages (some (title, content)) publish).notifications
      = [(u, "❌ 統合記事の投稿に失敗しました。")] ∧
    (processUserBatchPipeline u messages (some (title, content)) publish).publishCalls
      = [(title, insertImgurUrlsToContent content (imageMessagesOf messages))] := by
  have hcb : (content != "") = true := bne_iff_ne.mpr hc
  have htb : (title != "") = true := bne_iff_ne.mpr ht
  refine ⟨?_, ?_, ?_, ?_⟩ <;>
    simp [processUserBatchPipeline, hcb, htb, hpub]

/-- Witness for C6 at a concrete input. -/
theorem C6_publish_failure_witness :
    (processUserBatchPipeline "U" [msgTextA] (some ("T", "C")) (fun _ _ => none)).processedIds
      = [] ∧
    (processUserBatchPipeline "U" [msgTextA] (some ("T", "C")) (fun _ _ => none)).articles
      = [] ∧
    (processUserBatchPipeline "U" [msgTextA] (some ("T", "C")) (fun _ _ => none)).notifications
      = [("U", "❌ 統合記事の投稿に失敗しました。")] ∧
    (processUserBatchPipeline "U" [msgTextA] (some ("T", "C")) (fun _ _ => none)).publishCalls
      = [("T", insertImgurUrlsToContent "C" (imageMessagesOf [msgTextA]))] :=
  C6_publish_failure_terminal "U" [msgTextA] "T" "C" (fun _ _ => none)
    (by decide) (by decide) rfl

/-- Whether the per-item Gemini enrichment failed: the call raised (`none`)
or returned an effectively empty description. -/
def enrichmentFailed : Option String → Bool
  | none => true
  | some s => s.trim == ""

/-- C7: a failed per-item enrichment does not abort the batch — the image
item is still appended to the key's buffer, its content replaced by one of
the two sentinel descriptions, and any batch containing the item still
synthesizes and publishes, with the failed item's id among the published
sources. -/
theorem C7_enrichment_failure_isolated (st : ServerState) (u mid title content url : String)
    (analysis imgur : Option String) (tid : Nat)
    (hfail : enrichmentFailed analysis = true)
    (hfresh : ∀ r ∈ st.store, r.lineMessageId ≠ mid)
    (ht : title ≠ "") (hc : content ≠ "") :
    (dictGet (processMessageEventWithBatch ⟨"message", some u, some mid, "image", ""⟩
        analysis imgur tid st).buffer u).getD []
      = ((dictGet st.buffer u).getD [])
        ++ [⟨mid, u, "image", analyzedImageText analysis,
            some ("uploads/" ++ mid ++ ".jpg"), imgur⟩] ∧
    (analyzedImageText analysis = "【画像】画像が投稿されました（解析エラー）" ∨
      analyzedImageText analysis = "【画像】画像が投稿されました（解析失敗）") ∧
    (∀ (msgs : List Msg) (publish : String → String → Option String),
      publish title (insertImgurUrlsToContent content (imageMessagesOf msgs)) = some url →
      ((processUserBatchPipeline u msgs (some (title, content)) publish).articles.map
          (fun a => a.sourceMessageIds))
        = [msgs.map (fun m => m.lineMessageId)]) := by
  have hany : (st.store.any fun r => r.lineMessageId == mid) = false := by
    rw [List.any_eq_false]
    intro r hr
    simpa using hfresh r hr
  have hins : insertMessage st ⟨mid, u, "image", analyzedImageText analysis,
      some ("uploads/" ++ mid ++ ".jpg"), false⟩
      = some { st with store := st.store ++ [⟨mid, u, "image", analyzedImageText analysis,
          some ("uploads/" ++ mid ++ ".jpg"), false⟩] } := by
    simp [insertMessage, hany]
  refine ⟨?_, ?_, ?_⟩
  · simp [processMessageEventWithBatch, hins, addMessageToBatch, dictGet_dictSet_self]
  · match analysis, hfail with
    | none, _ => exact Or.inl rfl
    | some s, hfail =>
      have hs : (s.trim == "") = true := hfail
      exact Or.inr (by simp [analyzedImageText, hs])
  · intro msgs publish hp
    have hcb : (content != "") = true := bne_iff_ne.mpr hc
    have htb : (title != "") = true := bne_iff_ne.mpr ht
    simp [processUserBatchPipeline, hcb, htb, hp]

/-- Witness for C7 at a concrete input: Gemini raising (`none`) on an image
event still enqueues the item with the error sentinel, and a batch holding
it still publishes with its id recorded. -/
theorem C7_enrichment_failure_witness :
    (dictGet (processMessageEventWithBatch ⟨"message", some "U", some "B", "image", ""⟩
        none none 0 ⟨[], [], []⟩).buffer "U").getD []
      = [⟨"B", "U", "image", "【画像】画像が投稿されました（解析エラー）",
          some "uploads/B.jpg", none⟩] ∧
    (analyzedImageText none = "【画像】画像が投稿されました（解析エラー）" ∨
      analyzedImageText none = "【画像】画像が投稿されました（解析失敗）") := by
  have h := C7_enrichment_failure_isolated ⟨[], [], []⟩ "U" "B" "T" "C" "uX" none none 0
    rfl (by simp) (by decide) (by decide)
  exact ⟨by simpa using h.1, h.2.1⟩

/-- C8: when `create_integrated_content_fixed` fails — it raises and
returns `(None, None)`, or yields an empty title or body — the batch is
abandoned: the publish collaborator is never called, no `Article` row is
created, nothing is marked processed, and the origin user is sent the
generation-failure notification. -/
theorem C8_synthesis_failure_aborts (u : String) (messages : List Msg)
    (publish : String → String → Option String) (synthResult : Option (String × String))
    (hfail : synthResult = none ∨ ∃ t c, synthResult = some (t, c) ∧ (t = "" ∨ c = "")) :
    (processUserBatchPipeline u messages synthResult publish).publishCalls = [] ∧
    (processUserBatchPipeline u messages synthResult publish).articles = [] ∧
    (processUserBatchPipeline u messages synthResult publish).processedIds = [] ∧
    (processUserBatchPipeline u messages synthResult publish).notifications
      = [(u, "❌ コンテンツの生成に失敗しました。")] := by
  rcases hfail with rfl | ⟨t, c, rfl, hempty⟩
  · simp [processUserBatchPipeline]
  · rcases hempty with rfl | rfl <;> simp [processUserBatchPipeline]

/-- Witness for C8 at a concrete input: the exception path `(None, None)`. -/
theorem C8_synthesis_failure_witness :
    (processUserBatchPipeline "U" [msgTextA] none (fun _ _ => some "url")).publishCalls = [] ∧
    (processUserBatchPipeline "U" [msgTextA] none (fun _ _ => some "url")).articles = [] ∧
    (processUserBatchPipeline "U" [msgTextA] none (fun _ _ => some "url")).processedIds = [] ∧
    (processUserBatchPipeline "U" [msgTextA] none (fun _ _ => some "url")).notifications
      = [("U", "❌ コンテンツの生成に失敗しました。")] :=
  C8_synthesis_failure_aborts "U" [msgTextA] (fun _ _ => some "url") none (Or.inl rfl)

/-- C9 (code bug): `line_webhook` logs "DEBUGGING: Skipping signature
validation" and never verifies a present signature, so a request carrying
an **invalid** signature is fully processed — the event is stored and
enqueued and the response is 200 "OK", not a 4xx rejection without state
change; and a present-signature request with malformed JSON is answered
with 500, not a 4xx. -/
theorem C9_signature_validation_skipped :
    lineWebhook (some "invalid") false "x"
        (some [⟨"message", some "U", some "A", "text", "hi"⟩])
        (fun _ => none) (fun _ => none) ⟨[], [], []⟩
      = (("OK", 200),
        ⟨[("U", [⟨"A", "U", "text", "hi", none, none⟩])], [("U", 0)],
          [⟨"A", "U", "text", "hi", none, false⟩]⟩) ∧
    lineWebhook (some "invalid") false "x" none (fun _ => none) (fun _ => none) ⟨[], [], []⟩
      = (("Internal server error", 500), ⟨[], [], []⟩) := by
  constructor <;> rfl

/-- C10: a message event lacking the source userId or the message id is
silently dropped — the buffer, timers and store are untouched, nothing is
enqueued, and the webhook still answers 200 "OK". -/
theorem C10_missing_ids_silently_dropped (ev : Event) (analysis imgur : Option String)
    (tid : Nat) (st : ServerState) (sig body : String) (valid : Bool)
    (hev : ev.eventType = "message") (hbody : body ≠ "")
    (hmiss : ev.userId = none ∨ ev.messageId = none) :
    processMessageEventWithBatch ev analysis imgur tid st = st ∧
    lineWebhook (some sig) valid body (some [ev]) (fun _ => analysis) (fun _ => imgur) st
      = (("OK", 200), st) := by
  have h0 : ∀ (a i : Option String) (td : Nat),
      processMessageEventWithBatch ev a i td st = st := by
    intro a i td
    rcases hmiss with h | h
    · simp [processMessageEventWithBatch, h]
    · cases hu : ev.userId <;> simp [processMessageEventWithBatch, h, hu]
  have hbB : (body == "") = false := beq_eq_false_iff_ne.mpr hbody
  refine ⟨h0 analysis imgur tid, ?_⟩
  simp [lineWebhook, hbB, hev, h0]

/-- Witness for C10 at a concrete input: an event with no userId. -/
theorem C10_missing_ids_witness :
    processMessageEventWithBatch ⟨"message", none, some "A", "text", "hi"⟩ none none 0
        ⟨[], [], []⟩ = ⟨[], [], []⟩ ∧
    lineWebhook (some "sig") true "body"
        (some [⟨"message", none, some "A", "text", "hi"⟩])
        (fun _ => none) (fun _ => none) ⟨[], [], []⟩
      = (("OK", 200), ⟨[], [], []⟩) :=
  C10_missing_ids_silently_dropped ⟨"message", none, some "A", "text", "hi"⟩ none none 0
    ⟨[], [], []⟩ "sig" "body" true rfl (by decide) (Or.inl rfl)

end Webhook
